import Mathlib

/-!
Verification of the ETL core of the Vertica → PostgreSQL migration tool.

The definitions below are a shallow embedding of the TypeScript source:

* `pgInsertBatch` / `verticaInsertBatch` — `PostgreSQLAdapter.insertBatch`
  and `VerticaAdapter.insertBatch` (the transactional batch writers);
* `verticaGetRowCount` — `VerticaAdapter.getRowCount`;
* `resolveTargetCol`, `transformEntry`, `transformRow` — the per-row
  column/value transformation inside `migrateTable`;
* `sortCategoriesHierarchically` — the hierarchical ordering pass;
* `migrateTable` / `migrateLoop` — the batch pipeline.

JavaScript's dynamically typed row values are modelled by `Value`; `Date`
objects are modelled symbolically by `DateSrc`, remembering how the date was
constructed (`new Date(number)`, `new Date(string)`, or `new Date()` at the
ambient time `now`) instead of computing calendar arithmetic, since no claim
inspects the interior of a date.  `undefined` is identified with `null`
(the source treats them identically at every point that matters: the
`value !== null && value !== undefined` guard, the root test
`parent_id === null || parent_id === undefined`, and truthiness).
-/

namespace DBMig

/-- Construction datum of a JavaScript `Date` object: `new Date(n)`,
`new Date(s)`, or `new Date()` evaluated when the ambient clock reads `t`. -/
inductive DateSrc where
  | fromNum (n : Int)
  | fromStr (s : String)
  | now (t : Int)
deriving DecidableEq, Repr

/-- A JavaScript scalar value as it occurs in a data row. -/
inductive Value where
  | null
  | num (n : Int)
  | str (s : String)
  | bool (b : Bool)
  | date (d : DateSrc)
deriving DecidableEq, Repr

/-- A row: a JavaScript object, i.e. an insertion-ordered association list
from column names to values (keys unique by construction). -/
abbrev Row := List (String × Value)

/-- JavaScript truthiness of a `Value` (`Date` objects are always truthy). -/
def truthy : Value → Bool
  | .null => false
  | .num n => n ≠ 0
  | .str s => s ≠ ""
  | .bool b => b
  | .date _ => true

/-- JavaScript `a || b` on row values. -/
def jsOr (a b : Value) : Value := if truthy a then a else b

/-- Property read `row[key]`; a missing key yields `undefined`, which this
embedding identifies with `null`. -/
def rowGet (r : Row) (k : String) : Value := (r.lookup k).getD Value.null

/-- JavaScript property assignment `obj[k] = v`: overwrites in place when the
key exists (keeping its original position), otherwise appends. -/
def rowSet (r : Row) (k : String) (v : Value) : Row :=
  if r.any (fun p => p.1 = k) then
    r.map (fun p => if p.1 = k then (k, v) else p)
  else
    r ++ [(k, v)]

/-- Whether `pat` is a prefix of `l`. -/
def charsHavePrefix : List Char → List Char → Bool
  | _, [] => true
  | [], _ :: _ => false
  | c :: cs, p :: ps => c = p && charsHavePrefix cs ps

/-- Whether `pat` occurs as a contiguous sublist of `l`. -/
def charsInclude (pat : List Char) : List Char → Bool
  | [] => pat.isEmpty
  | c :: cs => charsHavePrefix (c :: cs) pat || charsInclude pat cs

/-- JavaScript `String.prototype.includes`: substring occurrence. -/
def jsIncludes (s pat : String) : Bool := charsInclude pat.data s.data

/-- JavaScript `String(value)` for the values the pipeline feeds it.  The
rendering of a `Date` is abstracted as a tag around its construction datum
(no claim inspects it). -/
def jsToString : Value → String
  | .null => "null"
  | .num n => toString n
  | .str s => s
  | .bool b => if b then "true" else "false"
  | .date _ => "[Date]"

/-- JavaScript `ToNumber` coercion for the cases the comparator can meet;
unparseable strings (`NaN`) are mapped to 0. -/
def jsToNumber : Value → Int
  | .null => 0
  | .num n => n
  | .str s => (s.toInt?).getD 0
  | .bool b => if b then 1 else 0
  | .date _ => 0

/-- JavaScript `new Date(value)` for a non-`Date` argument. -/
def mkDateOf : Value → Value
  | .num n => .date (.fromNum n)
  | .str s => .date (.fromStr s)
  | .bool b => .date (.fromNum (if b then 1 else 0))
  | .null => .date (.fromNum 0)
  | .date d => .date d

/-! ### Batch writer (`insertBatch`) -/

/-- Model of `BatchResult` from `src/adapters/base/database-adapter.ts`; an `Error`
is represented by its message. -/
structure BatchResult where
  success : Bool
  processedRows : Nat
  errors : List String
  duration : Nat
deriving DecidableEq, Repr

/-- Oracle for the database client inside one `insertBatch` call: whether
`BEGIN` throws, whether the `i`-th row insert throws (and with what message),
and whether `COMMIT` throws.  `none` means the query succeeds. -/
structure ClientModel where
  beginRes : Option String
  rowRes : Nat → Option String
  commitRes : Option String

/-- Evaluation of `columns.map((col) => row[col])`: the parameter list bound for one row of
the prepared insert statement. -/
def projectRow (cols : List String) (row : Row) : List Value :=
  cols.map (fun c => rowGet row c)

/-- The `for (const row of data)` loop of `insertBatch`, starting at row
index `i`: returns (`processedRows`, collected error messages, rows staged in
the open transaction as projected parameter lists). -/
def runRows (client : ClientModel) (cols : List String) :
    Nat → List Row → Nat × List String × List (List Value)
  | _, [] => (0, [], [])
  | i, row :: rest =>
    let r := runRows client cols (i + 1) rest
    match client.rowRes i with
    | none => (r.1 + 1, r.2.1, projectRow cols row :: r.2.2)
    | some m => (r.1, m :: r.2.1, r.2.2)

/-- Model of `PostgreSQLAdapter.insertBatch`.  Returns the `BatchResult`, the list of
rows left committed in the target by this call (empty after a rollback), and
the trace of queries issued to the client.  The early return for an empty
batch issues no query; a throwing `BEGIN` or `COMMIT` lands in the outer
`catch`, which rolls back, appends the exception to `errors`, and reports
`success: false` while keeping the `processedRows` counter as it stood. -/
def pgInsertBatch (client : ClientModel) (data : List Row) (elapsed : Nat) :
    BatchResult × List (List Value) × List String :=
  match data with
  | [] => ({ success := true, processedRows := 0, errors := [], duration := 0 }, [], [])
  | first :: _ =>
    let cols := first.map (fun p => p.1)
    match client.beginRes with
    | some m =>
      ({ success := false, processedRows := 0, errors := [m], duration := elapsed },
        [], ["BEGIN", "ROLLBACK"])
    | none =>
      let r := runRows client cols 0 data
      let qs := "BEGIN" :: data.map (fun _ => "INSERT")
      match client.commitRes with
      | none =>
        ({ success := r.2.1.isEmpty, processedRows := r.1, errors := r.2.1,
            duration := elapsed }, r.2.2, qs ++ ["COMMIT"])
      | some m =>
        ({ success := false, processedRows := r.1, errors := r.2.1 ++ [m],
            duration := elapsed }, [], qs ++ ["ROLLBACK"])

/-- Model of `VerticaAdapter.insertBatch`: textually the same algorithm as the
PostgreSQL writer (it issues `BEGIN`/`COMMIT`/`ROLLBACK` through
`executeQuery` instead of `client.query`). -/
def verticaInsertBatch (client : ClientModel) (data : List Row) (elapsed : Nat) :
    BatchResult × List (List Value) × List String :=
  match data with
  | [] => ({ success := true, processedRows := 0, errors := [], duration := 0 }, [], [])
  | first :: _ =>
    let cols := first.map (fun p => p.1)
    match client.beginRes with
    | some m =>
      ({ success := false, processedRows := 0, errors := [m], duration := elapsed },
        [], ["BEGIN", "ROLLBACK"])
    | none =>
      let r := runRows client cols 0 data
      let qs := "BEGIN" :: data.map (fun _ => "INSERT")
      match client.commitRes with
      | none =>
        ({ success := r.2.1.isEmpty, processedRows := r.1, errors := r.2.1,
            duration := elapsed }, r.2.2, qs ++ ["COMMIT"])
      | some m =>
        ({ success := false, processedRows := r.1, errors := r.2.1 ++ [m],
            duration := elapsed }, [], qs ++ ["ROLLBACK"])

/-! ### `VerticaAdapter.getRowCount` -/

/-- A cell of a driver result row, as `getRowCount` discriminates on
`typeof`: number, string, bigint, null/undefined, or anything else. -/
inductive VCell where
  | vnum (n : Int)
  | vstr (s : String)
  | vbig (n : Int)
  | vnull
  | vother
deriving DecidableEq, Repr

/-- A driver result row: positional array, named object, or an invalid
structure. -/
inductive VRow where
  | arr (cells : List VCell)
  | obj (fields : List (String × VCell))
  | invalid
deriving DecidableEq, Repr

/-- Outcome of `executeQuery` for the count query: a row list, or a thrown
error (connection failure, timeout, SQL error). -/
inductive VQueryRes where
  | ok (rows : List VRow)
  | thrown (msg : String)
deriving DecidableEq, Repr

/-- The `typeof`-dispatch at the end of `getRowCount`; `parseInt` on a
canonical integer string is modelled by `String.toInt?` (`NaN` ↦ 0). -/
def cellToCount : VCell → Int
  | .vnum n => n
  | .vstr s => (s.toInt?).getD 0
  | .vbig n => n
  | .vnull => 0
  | .vother => 0

/-- Model of `VerticaAdapter.getRowCount`: every failure mode — including a thrown
query (the `catch` block) — produces the substitute count 0; the function
never propagates an exception. -/
def verticaGetRowCount (q : VQueryRes) : Int :=
  match q with
  | .thrown _ => 0
  | .ok rows =>
    match rows with
    | [] => 0
    | firstRow :: _ =>
      match firstRow with
      | .arr cells =>
        match cells with
        | [] => 0
        | c :: _ => cellToCount c
      | .obj fields =>
        match fields with
        | [] => 0
        | (_, c) :: _ => cellToCount c
      | .invalid => 0

/-! ### Column mappings (`COLUMN_MAPPINGS` in the CLI source) -/

/-- Transcription of `COLUMN_MAPPINGS`: the per-table source-column → target-column maps. -/
def COLUMN_MAPPINGS : List (String × List (String × String)) :=
  [("USER_ACCESS",
     [("US_REC_ID", "id"), ("USER_TYPE", "type"), ("USER_CODE", "code"),
      ("USER_DESC", "description"), ("USER_REMARKS", "remarks"),
      ("IS_VALID", "is_valid"), ("BIZ_CODE", "biz_code"),
      ("RGN_CODE", "region_code"), ("SRC_SYS", "source_system"),
      ("CREATED_BY", "created_by"), ("CREATED_DATE", "created_at"),
      ("MODIFIED_BY", "modified_by"), ("MODIFIED_DATE", "updated_at")]),
   ("CAMERA",
     [("CAM_REC_ID", "id"), ("CAM_ID", "code"), ("NAME", "name"),
      ("DESCRIPTION", "description"), ("HTTP_URI", "http_uri"),
      ("RTSP_URI", "rtsp_uri"), ("FPS_TARGET", "fps_target"),
      ("RCIS_LANE_ID", "rcis_lane_id"), ("LOCATION", "location"),
      ("SORT_ORDER", "sort_order"), ("CATEGORY_ID", "category_id"),
      ("IS_VALID", "is_valid"), ("BIZ_CODE", "biz_code"),
      ("RGN_CODE", "rgn_code"), ("SRC_SYS", "src_sys"),
      ("CREATED_BY", "created_by"), ("CREATED_DATE", "created_at"),
      ("MODIFIED_BY", "modified_by"), ("MODIFIED_DATE", "modified_date"),
      ("SERVER", "server"), ("streaming", "streaming")]),
   ("ROLES",
     [("ROLE_REC_ID", "id"), ("NAME", "code"), ("DESCRIPTION", "description"),
      ("IS_VALID", "is_valid"), ("BIZ_CODE", "biz_code"),
      ("RGN_CODE", "rgn_code"), ("SRC_SYS", "src_sys"),
      ("CREATED_BY", "created_by"), ("CREATED_DATE", "created_at"),
      ("MODIFIED_BY", "modified_by"), ("MODIFIED_DATE", "updated_at")]),
   ("MODULES",
     [("MOD_REC_ID", "id"), ("SHORT_CODE", "code"), ("NAME", "name"),
      ("DESCRIPTION", "description"), ("TRITON_MODEL_NAME", "triton_model_name"),
      ("END_POINT_HTTP_URL", "end_point_http_url"),
      ("END_POINT_GRPC_URL", "end_point_grpc_url"),
      ("MAX_QUEUE_SIZE", "max_queue_size"), ("MAX_BATCH_SIZE", "max_batch_size"),
      ("SORT_ORDER", "sort_order"), ("IS_VALID", "is_valid"),
      ("BIZ_CODE", "biz_code"), ("RGN_CODE", "rgn_code"),
      ("SRC_SYS", "src_sys"), ("CREATED_BY", "created_by"),
      ("CREATED_DATE", "created_at"), ("MODIFIED_BY", "modified_by"),
      ("MODIFIED_DATE", "updated_at"), ("END_POINT_NAME", "end_point_name")]),
   ("CATEGORY",
     [("CATEGORY_ID", "id"), ("SHORT_CODE", "code"), ("NAME", "name"),
      ("DESCRIPTION", "description"), ("SORT_ORDER", "sort_order"),
      ("PARENT_ID", "parent_id"), ("IS_VALID", "is_valid"),
      ("BIZ_CODE", "biz_code"), ("RGN_CODE", "rgn_code"),
      ("SRC_SYS", "src_sys"), ("CREATED_BY", "created_by"),
      ("CREATED_DATE", "created_date"), ("MODIFIED_BY", "modified_by"),
      ("MODIFIED_DATE", "modified_date")])]

/-- Lookup `COLUMN_MAPPINGS[sourceTable] || {}`. -/
def columnMappingFor (table : String) : List (String × String) :=
  (COLUMN_MAPPINGS.lookup table).getD []

/-! ### Row transformation inside `migrateTable` -/

/-- Resolution `columnMapping[sourceCol] || sourceCol.toLowerCase()`: the explicit
mapping entry when present (and truthy — an empty string would fall
through, as with JavaScript `||`), else the lowercased source name. -/
def resolveTargetCol (mapping : List (String × String)) (sourceCol : String) : String :=
  match mapping.lookup sourceCol with
  | some t => if t = "" then sourceCol.toLower else t
  | none => sourceCol.toLower

/-- JavaScript `typeof value === 'number'`. -/
def isNumberV : Value → Bool
  | .num _ => true
  | _ => false

/-- Evaluation of `String(value).trim()` followed by the `varchar_truncate` rule
(`substring(0, 10)` when longer than 10). -/
def truncate10 (v : Value) : String :=
  let s := (jsToString v).trim
  if s.length > 10 then s.take 10 else s

/-- One iteration of the `for (const [sourceCol, value] of Object.entries(row))`
loop in `migrateTable`: resolve the target column, skip it when absent from
the target schema's column set, otherwise produce the transformed
key/value pair.  `now` is the ambient clock used by `new Date()`. -/
def transformEntry (sourceTable : String) (mapping : List (String × String))
    (targetCols : List String) (now : Int) (row : Row)
    (sourceCol : String) (value : Value) : Option (String × Value) :=
  let targetCol := resolveTargetCol mapping sourceCol
  if targetCol ∉ targetCols then none
  else if value ≠ Value.null then
    some (targetCol,
      if targetCol = "is_valid" ∧ isNumberV value then
        Value.bool (value = Value.num 1)
      else if jsIncludes targetCol "_at" ∨ jsIncludes targetCol "_date" then
        match value with
        | .date d => .date d
        | v => mkDateOf v
      else if targetCol = "streaming" ∧ isNumberV value then
        Value.bool (value = Value.num 1)
      else if sourceTable = "CATEGORY" ∧ sourceCol = "SHORT_CODE" ∧ targetCol = "code" then
        Value.str (truncate10 value)
      else value)
  else
    if (targetCol = "updated_at" ∨ targetCol = "modified_date")
        ∧ "created_at" ∈ targetCols then
      let key1 :=
        match mapping.lookup "CREATED_DATE" with
        | some t => if t = "" then "CREATED_DATE" else t
        | none => "CREATED_DATE"
      let createdAtValue :=
        jsOr (rowGet row key1) (jsOr (rowGet row "CREATED_DATE") (rowGet row "created_date"))
      if createdAtValue ≠ Value.null then
        some (targetCol,
          match createdAtValue with
          | .date d => .date d
          | v => mkDateOf v)
      else
        some (targetCol, Value.date (.now now))
    else if targetCol = "updated_at" ∨ jsIncludes targetCol "_at" then
      some (targetCol, Value.date (.now now))
    else if targetCol = "code" ∧ sourceTable = "CATEGORY" then
      some (targetCol, Value.str "UNKNOWN")
    else
      some (targetCol, Value.null)

/-- The whole per-row transformation of `migrateTable`: fold the entry
transformation over the source row, building `newRow` by JavaScript
property assignment. -/
def transformRow (sourceTable : String) (mapping : List (String × String))
    (targetCols : List String) (now : Int) (row : Row) : Row :=
  row.foldl
    (fun acc p =>
      match transformEntry sourceTable mapping targetCols now row p.1 p.2 with
      | none => acc
      | some (t, v) => rowSet acc t v)
    []

/-- Model of `PostgreSQLAdapter.transformValue` (not invoked by the pipeline, which
does its own inline conversion; embedded for reference).  `toISOString` is
abstracted by rendering the construction datum. -/
def pgTransformValue (value : Value) (_sourceType targetType : String) : Value :=
  if value = Value.null then Value.null
  else
    match targetType.toUpper with
    | "TIMESTAMP" =>
      match value with
      | .date d => .str ("ISO:" ++ (match d with
          | .fromNum n => toString n
          | .fromStr s => s
          | .now t => toString t))
      | v => v
    | "BOOLEAN" =>
      match value with
      | .str s => .bool (s.toLower = "true" ∨ s = "1")
      | v => .bool (truthy v)
    | _ => value

/-! ### `sortCategoriesHierarchically` -/

/-- The comparator passed to `childCategories.sort`: a direct parent/child
pair is ordered child-after-parent, every other pair falls back to
ascending `parent_id`. -/
def categoryCompare (a b : Row) : Int :=
  if rowGet a "parent_id" = rowGet b "id" then 1
  else if rowGet b "parent_id" = rowGet a "id" then -1
  else jsToNumber (rowGet a "parent_id") - jsToNumber (rowGet b "parent_id")

/-- Root test `category.parent_id === null || category.parent_id === undefined`. -/
def isRootRow (r : Row) : Bool := rowGet r "parent_id" = Value.null

/-- Longest prefix of `l` extending an ascending run whose previous element
is `prev` (comparator-wise: continue while `cmp next prev ≥ 0`); returns the
run continuation and the remainder. -/
def ascRun (cmp : α → α → Int) (prev : α) : List α → List α × List α
  | [] => ([], [])
  | y :: ys =>
    if cmp y prev < 0 then ([], y :: ys)
    else (y :: (ascRun cmp y ys).1, (ascRun cmp y ys).2)

/-- Longest prefix of `l` extending a strictly descending run whose previous
element is `prev`; returns the run continuation and the remainder. -/
def descRun (cmp : α → α → Int) (prev : α) : List α → List α × List α
  | [] => ([], [])
  | y :: ys =>
    if cmp y prev < 0 then (y :: (descRun cmp y ys).1, (descRun cmp y ys).2)
    else ([], y :: ys)

/-- TimSort's `countRunAndMakeAscending`: the maximal initial run, reversed
when strictly descending, plus the unsorted remainder. -/
def firstRun (cmp : α → α → Int) : List α → List α × List α
  | [] => ([], [])
  | [x] => ([x], [])
  | x :: y :: rest =>
    if cmp y x < 0 then
      ((x :: y :: (descRun cmp y rest).1).reverse, (descRun cmp y rest).2)
    else
      (x :: y :: (ascRun cmp y rest).1, (ascRun cmp y rest).2)

/-- Binary search for the insertion position of `x` in `sorted[lo..hi)`,
as in TimSort's binary insertion sort. -/
def binPos (cmp : α → α → Int) (x : α) (sorted : Array α) (lo hi : Nat) : Nat :=
  if h : lo < hi then
    let mid := (lo + hi) / 2
    if cmp x (sorted.getD mid x) < 0 then binPos cmp x sorted lo mid
    else binPos cmp x sorted (mid + 1) hi
  else lo
termination_by hi - lo
decreasing_by
  · omega
  · omega

/-- Insert `x` into the sorted list at its binary-search position. -/
def binInsert (cmp : α → α → Int) (sorted : List α) (x : α) : List α :=
  let p := binPos cmp x sorted.toArray 0 sorted.length
  sorted.take p ++ x :: sorted.drop p

/-- Model of `Array.prototype.sort` as V8 executes it for arrays of fewer than 64
elements (the regime of every input considered here): TimSort degenerates to
detecting the maximal initial run (reversing it when strictly descending)
and binary-inserting the remaining elements.  For an inconsistent comparator
— which `categoryCompare` is — ECMA-262 leaves the sort order
implementation-defined, so the embedding fixes the behaviour of the engine
the tool actually runs on. -/
def jsSort (cmp : α → α → Int) (l : List α) : List α :=
  (firstRun cmp l).2.foldl (binInsert cmp) (firstRun cmp l).1

/-- Model of `sortCategoriesHierarchically`: split roots (null/absent `parent_id`)
from children in input order, sort the children with `categoryCompare`, and
concatenate.  (The id → category `Map` built by the source is never read.) -/
def sortCategoriesHierarchically (categories : List Row) : List Row :=
  let rootCategories := categories.filter (fun c => isRootRow c)
  let childCategories := categories.filter (fun c => ! isRootRow c)
  rootCategories ++ jsSort categoryCompare childCategories

/-! ### The batch pipeline (`migrateTable`) -/

/-- A column of the introspected target `TableSchema` (the fields
`migrateTable` and the claims consult). -/
structure ColumnDef where
  name : String
  nullable : Bool
deriving DecidableEq, Repr

/-- Model of `MigrationOptions` as they reach `migrateTable` (the CLI has already
applied `parseInt` to `batch-size`). -/
structure MigrationOptions where
  batchSize : Option Nat
  dryRun : Bool
  verbose : Bool
deriving DecidableEq, Repr

/-- Summary shape `{totalRows, migratedRows}` named by the specification's
pipeline contract. -/
structure MigrationSummary where
  totalRows : Int
  migratedRows : Nat
deriving DecidableEq, Repr

/-- The environment a `migrateTable` run observes through the two adapters:
the introspected target schema, the outcome of the source count query, the
page the source returns for a given (offset, limit), the `BatchResult` the
target writer returns for a batch, and the ambient clock. -/
structure MigrationEnv where
  targetSchema : List ColumnDef
  rowCountRes : VQueryRes
  pages : Nat → Nat → List Row
  insertRes : List Row → BatchResult
  now : Int

/-- One adapter call recorded in a pipeline trace. -/
inductive PipeCall where
  | getTableSchema (table : String)
  | getRowCount (table : String)
  | getBatchData (offset limit : Nat)
  | insertBatchCall (rows : List Row)
deriving DecidableEq, Repr

/-- The `while (offset < totalRows)` loop of `migrateTable`: fetch a page,
stop if it is empty, transform it, hand it to the writer, accumulate
`migratedRows` only when the writer reports success, and advance the offset
by exactly `b`.  The structural `fuel` argument only bounds the number of
iterations; since the effective batch size is positive, `totalRows.toNat + 1`
ticks are more than the loop can ever use, so the fuel-exhaustion branch is
unreachable from `migrateTable`. -/
def migrateLoop (env : MigrationEnv) (src : String) (mapping : List (String × String))
    (targetCols : List String) (b : Nat) (totalRows : Int) :
    Nat → Nat → Nat → List PipeCall × Nat
  | 0, _, migrated => ([], migrated)
  | fuel + 1, offset, migrated =>
    if (offset : Int) < totalRows then
      let page := env.pages offset b
      if page = [] then ([PipeCall.getBatchData offset b], migrated)
      else
        let transformed := page.map (transformRow src mapping targetCols env.now)
        let res := env.insertRes transformed
        let migrated2 := if res.success then migrated + res.processedRows else migrated
        let rec2 := migrateLoop env src mapping targetCols b totalRows fuel (offset + b) migrated2
        (PipeCall.getBatchData offset b :: PipeCall.insertBatchCall transformed :: rec2.1,
          rec2.2)
    else ([], migrated)

/-- Model of `migrateTable(sourceAdapter, targetAdapter, sourceTable, targetTable,
options)`.  Returns the trace of adapter calls, the final `migratedRows`
counter (the value the closing log line reports), and the function's return
value — which in the source is `undefined` on every path (the dry-run branch
is a bare `return;` and the function body ends without a return), modelled
as `none`.  The `CATEGORY` branch is `migrateCategoryTable`: one full-table
read, transform, hierarchical sort, and a single batch insert. -/
def migrateTable (src tgt : String) (env : MigrationEnv) (opts : MigrationOptions) :
    List PipeCall × Nat × Option MigrationSummary :=
  let targetCols := env.targetSchema.map (fun c => c.name)
  let head := [PipeCall.getTableSchema tgt, PipeCall.getRowCount src]
  let totalRows := verticaGetRowCount env.rowCountRes
  if opts.dryRun then (head, 0, none)
  else if src = "CATEGORY" then
    let page := env.pages 0 totalRows.toNat
    let transformed := page.map (transformRow src (columnMappingFor src) targetCols env.now)
    let sorted := sortCategoriesHierarchically transformed
    let res := env.insertRes sorted
    let migrated := if res.success then res.processedRows else 0
    (head ++ [PipeCall.getBatchData 0 totalRows.toNat, PipeCall.insertBatchCall sorted],
      migrated, none)
  else
    let b := match opts.batchSize with
      | none => 1000
      | some 0 => 1000
      | some bs => bs
    let run := migrateLoop env src (columnMappingFor src) targetCols b totalRows
      (totalRows.toNat + 1) 0 0
    (head ++ run.1, run.2, none)

/-- The offsets of the `getBatchData` calls in a trace, in call order. -/
def offsetsOf (trace : List PipeCall) : List Nat :=
  trace.filterMap (fun c =>
    match c with
    | .getBatchData o _ => some o
    | _ => none)

/-- The target schema of the repository's own `users` table
(`schemas/target/postgresql/tables/users.sql`): `updated_at` and
`modified_by` carry no NOT NULL constraint. -/
def usersSchema : List ColumnDef :=
  [⟨"id", false⟩, ⟨"type", false⟩, ⟨"code", false⟩, ⟨"description", true⟩,
   ⟨"remarks", true⟩, ⟨"is_valid", false⟩, ⟨"biz_code", false⟩,
   ⟨"region_code", false⟩, ⟨"source_system", false⟩, ⟨"created_by", false⟩,
   ⟨"created_at", false⟩, ⟨"modified_by", true⟩, ⟨"updated_at", true⟩]

/-! ### Concrete instances used by witnesses and counterexamples -/

/-- A batch writer client whose row 1 insert hits a unique-constraint
violation; `BEGIN` and `COMMIT` succeed. -/
def c1Client : ClientModel :=
  ⟨none, fun i => if i = 1 then some "duplicate key value violates unique constraint"
    else none, none⟩

/-- Three-row batch for the partial-failure scenario. -/
def c1Data : List Row :=
  [[("id", Value.num 1)], [("id", Value.num 2)], [("id", Value.num 3)]]

/-- Client failing only at row 0. -/
def c1ClientA : ClientModel :=
  ⟨none, fun i => if i = 0 then some "duplicate key value violates unique constraint"
    else none, none⟩

/-- Client failing only at row 1, with the same error message. -/
def c1ClientB : ClientModel :=
  ⟨none, fun i => if i = 1 then some "duplicate key value violates unique constraint"
    else none, none⟩

/-- Two-row batch shared by the two single-failure clients. -/
def c1Pair : List Row := [[("id", Value.num 1)], [("id", Value.num 2)]]

/-- Category row with id 1 whose parent is the row with id 2. -/
def catX : Row := [("id", Value.num 1), ("parent_id", Value.num 2)]

/-- Category row unrelated to the other two (its parent id 3 is absent). -/
def catA : Row := [("id", Value.num 10), ("parent_id", Value.num 3)]

/-- Category row with id 2 — the parent of `catX` (its own parent id 9 is
absent). -/
def catP : Row := [("id", Value.num 2), ("parent_id", Value.num 9)]

/-- Client where every row insert succeeds but `COMMIT` throws a
connectivity error. -/
def c6Client : ClientModel :=
  ⟨none, fun _ => none, some "Connection terminated unexpectedly"⟩

/-- Two-row batch for the commit-failure scenario. -/
def c6Data : List Row := [[("id", Value.num 1)], [("id", Value.num 2)]]

/-- Client whose `BEGIN` throws a connectivity error. -/
def c6BeginClient : ClientModel := ⟨some "connection refused", fun _ => none, none⟩

/-- Client whose row 0 insert throws (a connectivity-style exception is
indistinguishable from a constraint violation to the per-row handler) while
`BEGIN` and `COMMIT` succeed. -/
def c6RowFailClient : ClientModel :=
  ⟨none, fun i => if i = 0 then some "Connection terminated unexpectedly" else none, none⟩

/-- The name-keyed condition under which `migrateTable` substitutes a null
value instead of propagating it, transcribed from the three fallback guards
of the null branch: (`updated_at` or `modified_date` with a `created_at`
target column), (`updated_at` or a name containing `_at`), or (`CATEGORY`'s
`code` column). -/
def nullFallbackTriggers (src tc : String) (cols : List String) : Prop :=
  ((tc = "updated_at" ∨ tc = "modified_date") ∧ "created_at" ∈ cols)
  ∨ (tc = "updated_at" ∨ jsIncludes tc "_at" = true)
  ∨ (tc = "code" ∧ src = "CATEGORY")

instance (src tc : String) (cols : List String) :
    Decidable (nullFallbackTriggers src tc cols) :=
  inferInstanceAs (Decidable
    (((tc = "updated_at" ∨ tc = "modified_date") ∧ "created_at" ∈ cols)
      ∨ (tc = "updated_at" ∨ jsIncludes tc "_at" = true)
      ∨ (tc = "code" ∧ src = "CATEGORY")))

/-- Environment of a dry run against a 10000-row source table. -/
def c5Env : MigrationEnv :=
  { targetSchema := usersSchema,
    rowCountRes := .ok [.obj [("count", .vnum 10000)]],
    pages := fun _ _ => [],
    insertRes := fun _ => ⟨true, 0, [], 0⟩,
    now := 0 }

/-- Environment whose source count query throws a connection error; the
source pages are non-empty, but the pipeline never asks for them. -/
def c7Env : MigrationEnv :=
  { targetSchema := usersSchema,
    rowCountRes := .thrown "connect ECONNREFUSED 10.0.0.5:5433",
    pages := fun _ _ => [[("MOD_REC_ID", Value.num 1)]],
    insertRes := fun rows => ⟨true, rows.length, [], 1⟩,
    now := 0 }

/-- Environment with a 3-row source paged in batches of 2. -/
def c8Env : MigrationEnv :=
  { targetSchema := [⟨"id", false⟩],
    rowCountRes := .ok [.arr [.vnum 3]],
    pages := fun o _ =>
      if o = 0 then [[("MOD_REC_ID", Value.num 1)], [("MOD_REC_ID", Value.num 2)]]
      else if o = 2 then [[("MOD_REC_ID", Value.num 3)]]
      else [],
    insertRes := fun rows => ⟨true, rows.length, [], 1⟩,
    now := 0 }

/-! ## Helper lemmas -/

theorem lookup_mem {l : List (String × String)} {k v : String}
    (h : l.lookup k = some v) : (k, v) ∈ l := by
  induction l with
  | nil => simp [List.lookup] at h
  | cons p rest ih =>
    obtain ⟨a, b⟩ := p
    rw [List.lookup] at h
    by_cases hk : k = a
    · subst hk
      rw [beq_self_eq_true] at h
      cases h
      exact List.mem_cons_self _ _
    · have : (k == a) = false := by simpa using hk
      rw [this] at h
      exact List.mem_cons_of_mem _ (ih h)

theorem lookup_eq_none_of_keys {l : Row} {k : String}
    (h : ∀ p ∈ l, p.1 ≠ k) : l.lookup k = none := by
  induction l with
  | nil => rfl
  | cons p rest ih =>
    obtain ⟨a, b⟩ := p
    rw [List.lookup]
    have ha : (k == a) = false := by
      simpa using fun hk => (h (a, b) (List.mem_cons_self _ _)) (hk.symm)
    rw [ha]
    exact ih fun q hq => h q (List.mem_cons_of_mem _ hq)

theorem transformEntry_key_mem {src : String} {mapping : List (String × String)}
    {cols : List String} {now : Int} {row : Row} {c : String} {v : Value}
    {t : String} {w : Value}
    (h : transformEntry src mapping cols now row c v = some (t, w)) : t ∈ cols := by
  simp only [transformEntry] at h
  by_cases hmem : resolveTargetCol mapping c ∈ cols
  · rw [if_neg (not_not_intro hmem)] at h
    have ht : t = resolveTargetCol mapping c := by
      split at h
      · exact (congrArg Prod.fst (Option.some.inj h)).symm
      · split at h
        · split at h
          · exact (congrArg Prod.fst (Option.some.inj h)).symm
          · exact (congrArg Prod.fst (Option.some.inj h)).symm
        · split at h
          · exact (congrArg Prod.fst (Option.some.inj h)).symm
          · split at h
            · exact (congrArg Prod.fst (Option.some.inj h)).symm
            · exact (congrArg Prod.fst (Option.some.inj h)).symm
    rw [ht]
    exact hmem
  · rw [if_pos hmem] at h
    cases h

theorem rowSet_keys {r : Row} {k : String} {v : Value} {cols : List String}
    (hr : ∀ p ∈ r, p.1 ∈ cols) (hk : k ∈ cols) :
    ∀ p ∈ rowSet r k v, p.1 ∈ cols := by
  intro p hp
  unfold rowSet at hp
  split at hp
  · obtain ⟨q, hq, hpq⟩ := List.mem_map.mp hp
    by_cases hqk : q.1 = k
    · rw [if_pos hqk] at hpq
      rw [← hpq]
      exact hk
    · rw [if_neg hqk] at hpq
      rw [← hpq]
      exact hr q hq
  · rcases List.mem_append.mp hp with h | h
    · exact hr p h
    · simp only [List.mem_singleton] at h
      rw [h]
      exact hk

theorem transformRow_keys (src : String) (mapping : List (String × String))
    (cols : List String) (now : Int) (row : Row) :
    ∀ p ∈ transformRow src mapping cols now row, p.1 ∈ cols := by
  suffices H : ∀ (l : List (String × Value)) (acc : Row), (∀ p ∈ acc, p.1 ∈ cols) →
      ∀ p ∈ l.foldl
        (fun acc p =>
          match transformEntry src mapping cols now row p.1 p.2 with
          | none => acc
          | some (t, v) => rowSet acc t v) acc, p.1 ∈ cols by
    intro p hp
    exact H row [] (by simp) p hp
  intro l
  induction l with
  | nil =>
    intro acc hacc p hp
    exact hacc p hp
  | cons q rest ih =>
    intro acc hacc p hp
    simp only [List.foldl_cons] at hp
    rcases hE : transformEntry src mapping cols now row q.1 q.2 with _ | ⟨t, w⟩
    · rw [hE] at hp
      exact ih acc hacc p hp
    · rw [hE] at hp
      exact ih _ (rowSet_keys hacc (transformEntry_key_mem hE)) p hp

/-! ## Sorting lemmas -/

theorem ascRun_append (cmp : α → α → Int) :
    ∀ (l : List α) (prev : α), (ascRun cmp prev l).1 ++ (ascRun cmp prev l).2 = l := by
  intro l
  induction l with
  | nil => intro prev; rfl
  | cons y ys ih =>
    intro prev
    unfold ascRun
    split
    · rfl
    · simpa using ih y

theorem descRun_append (cmp : α → α → Int) :
    ∀ (l : List α) (prev : α), (descRun cmp prev l).1 ++ (descRun cmp prev l).2 = l := by
  intro l
  induction l with
  | nil => intro prev; rfl
  | cons y ys ih =>
    intro prev
    unfold descRun
    split
    · simpa using ih y
    · rfl

theorem firstRun_perm (cmp : α → α → Int) (l : List α) :
    ((firstRun cmp l).1 ++ (firstRun cmp l).2).Perm l := by
  rcases l with _ | ⟨x, l2⟩
  · simp [firstRun]
  rcases l2 with _ | ⟨y, rest⟩
  · simp [firstRun]
  simp only [firstRun]
  split
  · have h1 : ((x :: y :: (descRun cmp y rest).1).reverse ++ (descRun cmp y rest).2).Perm
        ((x :: y :: (descRun cmp y rest).1) ++ (descRun cmp y rest).2) :=
      (List.reverse_perm _).append_right _
    have h2 : (x :: y :: (descRun cmp y rest).1) ++ (descRun cmp y rest).2
        = x :: y :: rest := by
      simpa using descRun_append cmp rest y
    rw [h2] at h1
    exact h1
  · have h2 : (x :: y :: (ascRun cmp y rest).1) ++ (ascRun cmp y rest).2
        = x :: y :: rest := by
      simpa using ascRun_append cmp rest y
    rw [h2]

theorem binInsert_perm (cmp : α → α → Int) (s : List α) (x : α) :
    (binInsert cmp s x).Perm (x :: s) := by
  unfold binInsert
  have h : (s.take (binPos cmp x s.toArray 0 s.length) ++ x ::
        s.drop (binPos cmp x s.toArray 0 s.length)).Perm
      (x :: (s.take (binPos cmp x s.toArray 0 s.length) ++
        s.drop (binPos cmp x s.toArray 0 s.length))) :=
    List.perm_middle
  rwa [List.take_append_drop] at h

theorem foldl_binInsert_perm (cmp : α → α → Int) :
    ∀ (rest run : List α), (rest.foldl (binInsert cmp) run).Perm (run ++ rest) := by
  intro rest
  induction rest with
  | nil => intro run; simp
  | cons x xs ih =>
    intro run
    simp only [List.foldl_cons]
    exact (ih _).trans
      (((binInsert_perm cmp run x).append_right xs).trans List.perm_middle.symm)

theorem jsSort_perm (cmp : α → α → Int) (l : List α) : (jsSort cmp l).Perm l := by
  unfold jsSort
  exact (foldl_binInsert_perm cmp _ _).trans (firstRun_perm cmp l)

/-! ## Batch-writer loop lemmas -/

theorem runRows_all_ok (client : ClientModel) (cols : List String) :
    ∀ (data : List Row) (i : Nat),
      (∀ j, i ≤ j → j < i + data.length → client.rowRes j = none) →
      runRows client cols i data = (data.length, [], data.map (projectRow cols)) := by
  intro data
  induction data with
  | nil => intro i _; rfl
  | cons row rest ih =>
    intro i h
    have h0 : client.rowRes i = none := h i le_rfl (by simp)
    have hrec := ih (i + 1) (fun j hj1 hj2 => h j (by omega) (by simp at hj2 ⊢; omega))
    simp only [runRows, hrec, h0]
    simp

theorem runRows_single_fail (client : ClientModel) (cols : List String) :
    ∀ (data : List Row) (i k : Nat) (msg : String),
      i ≤ k → k < i + data.length →
      client.rowRes k = some msg →
      (∀ j, i ≤ j → j < i + data.length → j ≠ k → client.rowRes j = none) →
      runRows client cols i data
        = (data.length - 1, [msg], ((data.eraseIdx (k - i)).map (projectRow cols))) := by
  intro data
  induction data with
  | nil =>
    intro i k msg h1 h2 _ _
    simp at h2
    omega
  | cons row rest ih =>
    intro i k msg h1 h2 hf ho
    by_cases hik : i = k
    · subst hik
      have hrec := runRows_all_ok client cols rest (i + 1)
        (fun j hj1 hj2 => ho j (by omega) (by simp at hj2 ⊢; omega) (by omega))
      simp only [runRows, hrec, hf]
      simp
    · have hlt : i < k := lt_of_le_of_ne h1 hik
      have h0 : client.rowRes i = none := ho i le_rfl (by simp) (by omega)
      have hrest : 1 ≤ rest.length := by simp at h2; omega
      have hrec := ih (i + 1) k msg (by omega) (by simp at h2 ⊢; omega) hf
        (fun j hj1 hj2 hj3 => ho j (by omega) (by simp at hj2 ⊢; omega) hj3)
      simp only [runRows, hrec, h0]
      have hk : k - i = (k - (i + 1)) + 1 := by omega
      rw [hk, List.eraseIdx_cons_succ]
      simp
      omega

theorem runRows_sum (client : ClientModel) (cols : List String) :
    ∀ (data : List Row) (i : Nat),
      (runRows client cols i data).1 + (runRows client cols i data).2.1.length
        = data.length := by
  intro data
  induction data with
  | nil => intro i; rfl
  | cons row rest ih =>
    intro i
    have hrec := ih (i + 1)
    rcases h0 : client.rowRes i with _ | m
    · simp only [runRows, h0]
      simp
      omega
    · simp only [runRows, h0]
      simp
      omega

/-! ## Pipeline-loop lemmas -/

theorem migrateLoop_offsets (env : MigrationEnv) (src : String)
    (mapping : List (String × String)) (cols : List String) (b : Nat) (totalRows : Int) :
    ∀ (fuel offset migrated : Nat),
      ∃ k,
        offsetsOf (migrateLoop env src mapping cols b totalRows fuel offset migrated).1
          = (List.range k).map (fun i => offset + i * b)
        ∧ (∀ o ∈ offsetsOf
              (migrateLoop env src mapping cols b totalRows fuel offset migrated).1,
            (o : Int) < totalRows)
        ∧ (∀ o ∈ offsetsOf
              (migrateLoop env src mapping cols b totalRows fuel offset migrated).1,
            o = offset ∨ env.pages (o - b) b ≠ []) := by
  intro fuel
  induction fuel with
  | zero =>
    intro offset migrated
    exact ⟨0, by simp [migrateLoop, offsetsOf], by simp [migrateLoop, offsetsOf],
      by simp [migrateLoop, offsetsOf]⟩
  | succ fuel ih =>
    intro offset migrated
    simp only [migrateLoop]
    split
    · next hlt =>
      split
      · next hpage =>
        refine ⟨1, by simp [offsetsOf, List.range_succ], ?_, ?_⟩
        · intro o ho
          simp [offsetsOf] at ho
          rw [ho]
          exact hlt
        · intro o ho
          simp [offsetsOf] at ho
          exact Or.inl ho
      · next hpage =>
        obtain ⟨k, h1, h2, h3⟩ := ih (offset + b)
          (if (env.insertRes ((env.pages offset b).map
              (transformRow src mapping cols env.now))).success
            then migrated + (env.insertRes ((env.pages offset b).map
              (transformRow src mapping cols env.now))).processedRows
            else migrated)
        refine ⟨k + 1, ?_, ?_, ?_⟩
        · simp only [offsetsOf, List.filterMap_cons] at h1 ⊢
          rw [h1, List.range_succ_eq_map, List.map_cons, List.map_map]
          refine congrArg₂ _ (by simp) (List.map_congr_left ?_)
          intro i _
          simp only [Function.comp_apply, Nat.succ_eq_add_one]
          ring
        · intro o ho
          simp only [offsetsOf, List.filterMap_cons] at ho
          rcases List.mem_cons.mp ho with h | h
          · rw [h]; exact hlt
          · exact h2 o h
        · intro o ho
          simp only [offsetsOf, List.filterMap_cons] at ho
          rcases List.mem_cons.mp ho with h | h
          · exact Or.inl h
          · rcases h3 o h with h4 | h4
            · right
              rw [h4]
              simpa using hpage
            · exact Or.inr h4
    · exact ⟨0, by simp [offsetsOf], by simp [offsetsOf], by simp [offsetsOf]⟩


/-! ## Claim C1 — batch partial-failure isolation -/

/-- C1 (counterexample): the claim says the single error entry "references
the failing row's zero-based index in the batch".  It cannot: BatchResult's
`errors` is a bare error list with no index.  Two runs over the same two-row
batch, one failing at row 0 and one failing at row 1 with the same database
message, return identical `BatchResult`s even though different rows remain
committed — so the failing row's index is not recoverable from the result. -/
theorem C1_counterexample :
    (pgInsertBatch c1ClientA c1Pair 9).1 = (pgInsertBatch c1ClientB c1Pair 9).1
    ∧ c1ClientA.rowRes 0 ≠ none
    ∧ c1ClientA.rowRes 1 = none
    ∧ c1ClientB.rowRes 0 = none
    ∧ c1ClientB.rowRes 1 ≠ none
    ∧ (pgInsertBatch c1ClientA c1Pair 9).2.1 ≠ (pgInsertBatch c1ClientB c1Pair 9).2.1 := by
  refine ⟨rfl, by decide, rfl, rfl, by decide, by decide⟩

/-- C1 (amended): for a batch in which exactly one row insert (at index `k`)
throws a row-local error and `BEGIN`/`COMMIT` succeed, `insertBatch` returns
`success = false`, `processedRows` = batch size − 1, and exactly one error
entry carrying the database error message (but not the row index); all
sibling rows remain committed after the batch commits. -/
theorem C1_amended (client : ClientModel) (data : List Row) (k : Nat) (msg : String)
    (e : Nat)
    (hb : client.beginRes = none) (hc : client.commitRes = none)
    (hk : k < data.length) (hf : client.rowRes k = some msg)
    (ho : ∀ i, i < data.length → i ≠ k → client.rowRes i = none) :
    (pgInsertBatch client data e).1.success = false
    ∧ (pgInsertBatch client data e).1.processedRows = data.length - 1
    ∧ (pgInsertBatch client data e).1.errors = [msg]
    ∧ (pgInsertBatch client data e).2.1
        = (data.eraseIdx k).map (projectRow ((data.headD []).map (fun p => p.1))) := by
  rcases data with _ | ⟨first, rest⟩
  · simp at hk
  · have hrun := runRows_single_fail client (first.map (fun p => p.1)) (first :: rest)
      0 k msg (by omega) (by simpa using hk) hf
      (fun j _ hj2 hj3 => ho j (by simpa using hj2) hj3)
    simp only [pgInsertBatch, hb, hc, hrun]
    simp

/-- C1 (witness): the amended statement at a concrete three-row batch whose
row 1 violates a unique constraint. -/
theorem C1_witness :
    (pgInsertBatch c1Client c1Data 7).1.success = false
    ∧ (pgInsertBatch c1Client c1Data 7).1.processedRows = c1Data.length - 1
    ∧ (pgInsertBatch c1Client c1Data 7).1.errors
        = ["duplicate key value violates unique constraint"]
    ∧ (pgInsertBatch c1Client c1Data 7).2.1
        = (c1Data.eraseIdx 1).map (projectRow ((c1Data.headD []).map (fun p => p.1))) :=
  C1_amended c1Client c1Data 1 "duplicate key value violates unique constraint" 7
    rfl rfl (by decide) rfl (by decide)

/-! ## Claim C2 — self-reference ordering -/

/-- C2 (counterexample): `sortCategoriesHierarchically` does not place every
referenced parent before its referencing child.  For the child-only input
`[catX, catA, catP]` — where `catX.parent_id = 2` references `catP` — every
adjacent comparator call is ≥ 0, so the sort's run detection accepts the
input order unchanged and the child `catX` (index 0) stays before its parent
`catP` (index 2). -/
theorem C2_counterexample :
    sortCategoriesHierarchically [catX, catA, catP] = [catX, catA, catP]
    ∧ rowGet catX "parent_id" = rowGet catP "id"
    ∧ rowGet catX "parent_id" ≠ Value.null
    ∧ catX ≠ catP := by
  decide

/-- C2 (amended): the pass places the rows with null/absent `parent_id`
first, preserving their original relative order, and the output is a
permutation of the input (no row lost or duplicated); consequently every
root parent precedes every child.  The claimed parent-before-child guarantee
for parents that are themselves children does not hold (see the
counterexample): the children are ordered by a heuristic comparator, not a
topological sort. -/
theorem C2_amended (cats : List Row) :
    (sortCategoriesHierarchically cats).take
        (cats.filter (fun c => isRootRow c)).length
      = cats.filter (fun c => isRootRow c)
    ∧ (sortCategoriesHierarchically cats).Perm cats := by
  constructor
  · simp only [sortCategoriesHierarchically]
    exact List.take_left _ _
  · simp only [sortCategoriesHierarchically]
    exact ((jsSort_perm _ _).append_left _).trans
      (List.filter_append_perm (fun c => isRootRow c) cats)

/-! ## Claim C10 — empty batch is a no-op -/

/-- C10: for every client state, `insertBatch` on an empty row list returns
exactly `{success: true, processedRows: 0, errors: [], duration: 0}`,
commits nothing, and issues no query at all (no transaction is opened), in
both the PostgreSQL and the Vertica adapter. -/
theorem C10_empty_batch :
    ∀ (client : ClientModel) (elapsed : Nat),
      pgInsertBatch client [] elapsed
        = ({ success := true, processedRows := 0, errors := [], duration := 0 }, [], [])
      ∧ verticaInsertBatch client [] elapsed
        = ({ success := true, processedRows := 0, errors := [], duration := 0 }, [], []) :=
  fun _ _ => ⟨rfl, rfl⟩


/-! ## Claim C3 — null-fallback exclusivity -/

/-- C3 (counterexample): the null fallback is keyed on the target column
NAME, never on nullability.  The repository's own target `users` table marks
`updated_at` nullable, and `USER_ACCESS` maps `MODIFIED_DATE → updated_at`;
yet a null `MODIFIED_DATE` (with no creation timestamp available either) is
substituted with the current time instead of remaining null. -/
theorem C3_counterexample :
    (⟨"updated_at", true⟩ : ColumnDef) ∈ usersSchema
    ∧ transformEntry "USER_ACCESS" (columnMappingFor "USER_ACCESS")
        (usersSchema.map (fun c => c.name)) 777
        [("MODIFIED_DATE", Value.null), ("CREATED_DATE", Value.null)]
        "MODIFIED_DATE" Value.null
      = some ("updated_at", Value.date (.now 777))
    ∧ Value.date (.now 777) ≠ Value.null := by
  decide

/-- C3 (amended): the null-fallback is keyed on the resolved target column
name, never on nullability.  For a column present in the target column set,
a null source value remains null exactly when `nullFallbackTriggers` fails —
the name is not `updated_at`, not `modified_date`-with-a-`created_at`-column
(so `CATEGORY`'s `modified_date`, whose table has `created_date` but no
`created_at`, keeps its null), does not contain `_at`, and is not
`CATEGORY`'s `code` column; and whenever the trigger holds the null is
replaced by a non-null substitute (a timestamp or the `"UNKNOWN"` sentinel),
for nullable and NOT NULL columns alike. -/
theorem C3_amended (src : String) (mapping : List (String × String))
    (cols : List String) (row : Row) (now : Int) (c : String)
    (h1 : resolveTargetCol mapping c ∈ cols) :
    (¬ nullFallbackTriggers src (resolveTargetCol mapping c) cols →
      transformEntry src mapping cols now row c Value.null
        = some (resolveTargetCol mapping c, Value.null))
    ∧ (nullFallbackTriggers src (resolveTargetCol mapping c) cols →
      ∃ v, transformEntry src mapping cols now row c Value.null
          = some (resolveTargetCol mapping c, v)
        ∧ v ≠ Value.null) := by
  constructor
  · intro hng
    obtain ⟨hA, hBC⟩ := not_or.mp hng
    obtain ⟨hB, hC⟩ := not_or.mp hBC
    simp only [transformEntry]
    rw [if_neg (not_not_intro h1)]
    rw [if_neg (by simp)]
    rw [if_neg hA]
    rw [if_neg hB]
    rw [if_neg hC]
  · intro htrig
    have key : ∀ (w : Value) (tc2 : String),
        ∃ v, (if w ≠ Value.null then
                some (tc2,
                  match w with
                  | Value.date d => Value.date d
                  | v2 => mkDateOf v2)
              else some (tc2, Value.date (DateSrc.now now)))
            = some (tc2, v) ∧ v ≠ Value.null := by
      intro w tc2
      by_cases hw : w ≠ Value.null
      · rw [if_pos hw]
        refine ⟨_, rfl, ?_⟩
        cases w <;> simp [mkDateOf]
      · rw [if_neg hw]
        exact ⟨_, rfl, by simp⟩
    simp only [transformEntry]
    rw [if_neg (not_not_intro h1)]
    rw [if_neg (by simp)]
    by_cases hA2 : ((resolveTargetCol mapping c = "updated_at"
        ∨ resolveTargetCol mapping c = "modified_date") ∧ "created_at" ∈ cols)
    · rw [if_pos hA2]
      exact key _ _
    · rw [if_neg hA2]
      by_cases hB2 : (resolveTargetCol mapping c = "updated_at"
          ∨ jsIncludes (resolveTargetCol mapping c) "_at" = true)
      · rw [if_pos hB2]
        exact ⟨_, rfl, by simp⟩
      · rw [if_neg hB2]
        by_cases hC2 : (resolveTargetCol mapping c = "code" ∧ src = "CATEGORY")
        · rw [if_pos hC2]
          exact ⟨_, rfl, by simp⟩
        · rcases htrig with h | h | h
          · exact absurd h hA2
          · exact absurd h hB2
          · exact absurd h hC2

/-- C3 (witness): both directions at concrete columns.  `CATEGORY`'s
`modified_date` — whose target table carries `created_date` but no
`created_at` — keeps its null (the case the trigger excludes), while
`USER_ACCESS`'s null `MODIFIED_DATE → updated_at` (nullable in `users.sql`)
is replaced by a non-null substitute. -/
theorem C3_witness :
    transformEntry "CATEGORY" (columnMappingFor "CATEGORY")
        ["id", "code", "modified_date", "created_date"] 5
        [("MODIFIED_DATE", Value.null)] "MODIFIED_DATE" Value.null
      = some (resolveTargetCol (columnMappingFor "CATEGORY") "MODIFIED_DATE",
          Value.null)
    ∧ ∃ v, transformEntry "USER_ACCESS" (columnMappingFor "USER_ACCESS")
          (usersSchema.map (fun col => col.name)) 777
          [("MODIFIED_DATE", Value.null), ("CREATED_DATE", Value.null)]
          "MODIFIED_DATE" Value.null
        = some (resolveTargetCol (columnMappingFor "USER_ACCESS") "MODIFIED_DATE", v)
      ∧ v ≠ Value.null :=
  ⟨(C3_amended "CATEGORY" (columnMappingFor "CATEGORY")
      ["id", "code", "modified_date", "created_date"]
      [("MODIFIED_DATE", Value.null)] 5 "MODIFIED_DATE" (by decide)).1 (by decide),
   (C3_amended "USER_ACCESS" (columnMappingFor "USER_ACCESS")
      (usersSchema.map (fun col => col.name))
      [("MODIFIED_DATE", Value.null), ("CREATED_DATE", Value.null)] 777
      "MODIFIED_DATE" (by decide)).2 (by decide)⟩

/-! ## Claim C4 — boolean conversion -/

/-- C4 (counterexample): the pipeline's boolean conversion only fires for
`typeof value === 'number'`.  The numeric-string `"1"` in an `IS_VALID`
column passes through unchanged as the string `"1"` instead of becoming the
boolean `true` the claim requires. -/
theorem C4_counterexample :
    transformRow "USER_ACCESS" (columnMappingFor "USER_ACCESS")
        ["is_valid"] 0 [("IS_VALID", Value.str "1")]
      = [("is_valid", Value.str "1")]
    ∧ Value.str "1" ≠ Value.bool true := by
  decide

/-- C4 (amended): the pipeline's boolean conversion applies exactly to
NUMERIC source values of a column resolving to `is_valid` or `streaming`:
the number 1 maps to `true` and every other number to `false`, while every
non-null non-numeric value of such a column — numeric strings like `"1"`,
the string `"true"`, booleans, dates — passes through entirely unchanged
(see the counterexample).  In particular `{IS_VALID: 1} ↦ {is_valid: true}`
and `{IS_VALID: 0} ↦ {is_valid: false}`. -/
theorem C4_amended (src : String) (mapping : List (String × String))
    (cols : List String) (row : Row) (now : Int) (c : String)
    (hres : resolveTargetCol mapping c = "is_valid"
      ∨ resolveTargetCol mapping c = "streaming")
    (hmem : resolveTargetCol mapping c ∈ cols) :
    (∀ n : Int, transformEntry src mapping cols now row c (Value.num n)
        = some (resolveTargetCol mapping c, Value.bool (decide (n = 1))))
    ∧ (∀ v : Value, v ≠ Value.null → isNumberV v = false →
        transformEntry src mapping cols now row c v
          = some (resolveTargetCol mapping c, v)) := by
  constructor
  · intro n
    simp only [transformEntry]
    rw [if_neg (not_not_intro hmem)]
    rw [if_pos (by simp)]
    rcases hres with h | h <;> rw [h]
    · rw [if_pos ⟨rfl, rfl⟩]
      exact congrArg (fun b => some ("is_valid", Value.bool b))
        (decide_eq_decide.mpr (by simp))
    · rw [if_neg (by rintro ⟨h2, -⟩; exact absurd h2 (by decide))]
      rw [if_neg (by decide)]
      rw [if_pos ⟨rfl, rfl⟩]
      exact congrArg (fun b => some ("streaming", Value.bool b))
        (decide_eq_decide.mpr (by simp))
  · intro v hv hnum
    simp only [transformEntry]
    rw [if_neg (not_not_intro hmem)]
    rw [if_pos hv]
    rcases hres with h | h <;> rw [h]
    · rw [if_neg (by rintro ⟨-, h2⟩; rw [hnum] at h2; exact absurd h2 (by decide))]
      rw [if_neg (by decide)]
      rw [if_neg (by rintro ⟨h2, -⟩; exact absurd h2 (by decide))]
      rw [if_neg (by rintro ⟨-, -, h2⟩; exact absurd h2 (by decide))]
    · rw [if_neg (by rintro ⟨h2, -⟩; exact absurd h2 (by decide))]
      rw [if_neg (by decide)]
      rw [if_neg (by rintro ⟨-, h2⟩; rw [hnum] at h2; exact absurd h2 (by decide))]
      rw [if_neg (by rintro ⟨-, -, h2⟩; exact absurd h2 (by decide))]

/-- C4 (witness): the amended statement at the specification's own scenario
(`{IS_VALID: 1}` and `{IS_VALID: 0}`), at the real `CAMERA.streaming`
column, and at the pass-through of the numeric-string `"1"`. -/
theorem C4_witness :
    transformEntry "USER_ACCESS" (columnMappingFor "USER_ACCESS") ["is_valid"] 0
        [("IS_VALID", Value.num 1)] "IS_VALID" (Value.num 1)
      = some ("is_valid", Value.bool true)
    ∧ transformEntry "USER_ACCESS" (columnMappingFor "USER_ACCESS") ["is_valid"] 0
        [("IS_VALID", Value.num 0)] "IS_VALID" (Value.num 0)
      = some ("is_valid", Value.bool false)
    ∧ transformEntry "CAMERA" (columnMappingFor "CAMERA") ["streaming"] 0
        [("streaming", Value.num 1)] "streaming" (Value.num 1)
      = some ("streaming", Value.bool true)
    ∧ transformEntry "USER_ACCESS" (columnMappingFor "USER_ACCESS") ["is_valid"] 0
        [("IS_VALID", Value.str "1")] "IS_VALID" (Value.str "1")
      = some ("is_valid", Value.str "1") :=
  ⟨(C4_amended "USER_ACCESS" (columnMappingFor "USER_ACCESS") ["is_valid"]
      [("IS_VALID", Value.num 1)] 0 "IS_VALID" (Or.inl (by decide)) (by decide)).1 1,
   (C4_amended "USER_ACCESS" (columnMappingFor "USER_ACCESS") ["is_valid"]
      [("IS_VALID", Value.num 0)] 0 "IS_VALID" (Or.inl (by decide)) (by decide)).1 0,
   (C4_amended "CAMERA" (columnMappingFor "CAMERA") ["streaming"]
      [("streaming", Value.num 1)] 0 "streaming" (Or.inr (by decide)) (by decide)).1 1,
   (C4_amended "USER_ACCESS" (columnMappingFor "USER_ACCESS") ["is_valid"]
      [("IS_VALID", Value.str "1")] 0 "IS_VALID" (Or.inl (by decide)) (by decide)).2
      (Value.str "1") (by decide) (by decide)⟩

/-! ## Claim C5 — dry run -/

/-- C5 (counterexample): a dry run does skip all reads and writes, but
`migrateTable` does not return the claimed summary `{totalRows: 10000,
migratedRows: 0}` — the dry-run branch is a bare `return;`, so the function
returns `undefined` (modelled `none`). -/
theorem C5_counterexample :
    verticaGetRowCount c5Env.rowCountRes = 10000
    ∧ (migrateTable "USER_ACCESS" "users" c5Env ⟨some 1000, true, false⟩).2.2 = none
    ∧ (migrateTable "USER_ACCESS" "users" c5Env ⟨some 1000, true, false⟩).2.2
        ≠ some ⟨10000, 0⟩ := by
  decide

/-- C5 (amended): when `dryRun` is set, the pipeline performs exactly the
target-schema introspection and the source row count — no `getBatchData`
call, no `insertBatch` call, so the target is untouched — the migrated-row
counter stays 0, and the function returns without a summary (its return
value is `undefined`, not `{totalRows, migratedRows}`). -/
theorem C5_dry_run (src tgt : String) (env : MigrationEnv) (opts : MigrationOptions)
    (hdry : opts.dryRun = true) :
    migrateTable src tgt env opts
      = ([PipeCall.getTableSchema tgt, PipeCall.getRowCount src], 0, none) := by
  simp [migrateTable, hdry]

/-- C5 (witness): the amended statement at the 10000-row dry-run scenario. -/
theorem C5_witness :
    migrateTable "USER_ACCESS" "users" c5Env ⟨some 1000, true, false⟩
      = ([PipeCall.getTableSchema "users", PipeCall.getRowCount "USER_ACCESS"],
          0, none) :=
  C5_dry_run "USER_ACCESS" "users" c5Env ⟨some 1000, true, false⟩ rfl


/-! ## Claim C6 — connectivity failure during a batch -/

/-- C6 (counterexample): when `COMMIT` throws after both row inserts of a
two-row batch succeeded, the batch is rolled back, but the result reports
`processedRows = 2` (not 0) and a single error entry (not one per row) —
contradicting "all rows reported failed, none as processed". -/
theorem C6_counterexample :
    (pgInsertBatch c6Client c6Data 3).1.success = false
    ∧ (pgInsertBatch c6Client c6Data 3).2.1 = []
    ∧ (pgInsertBatch c6Client c6Data 3).1.processedRows = 2
    ∧ (pgInsertBatch c6Client c6Data 3).1.errors.length = 1
    ∧ ¬((pgInsertBatch c6Client c6Data 3).1.processedRows = 0
        ∧ (pgInsertBatch c6Client c6Data 3).1.errors.length = c6Data.length) := by
  decide

/-- C6 (amended): a connectivity-level exception at `BEGIN` or `COMMIT`
rolls the whole batch back (no rows stay committed) and yields
`success = false` with the exception recorded in `errors` — but the result
does not report every row as failed.  At a `BEGIN` failure the result is
exactly `{success: false, processedRows: 0, errors: [exception]}` (the loop
never ran).  At a `COMMIT` failure `processedRows` retains the count of row
inserts that had succeeded before the rollback and the exception is appended
as the LAST error entry, so for that case per-row errors plus
`processedRows` sum to the batch size — the rolled-back rows are not
re-reported as failures.  And when `BEGIN` and `COMMIT` both succeed, an
exception thrown by an individual row insert — connectivity-level or not —
is absorbed by the per-row handler: the batch still ends in `COMMIT` and no
`ROLLBACK` is ever issued. -/
theorem C6_amended (client : ClientModel) (data : List Row) (e : Nat) (m : String)
    (hne : data ≠ []) :
    (client.beginRes = some m →
      (pgInsertBatch client data e).1
          = { success := false, processedRows := 0, errors := [m], duration := e }
      ∧ (pgInsertBatch client data e).2.1 = [])
    ∧ (client.beginRes = none → client.commitRes = some m →
      (pgInsertBatch client data e).1.success = false
      ∧ (pgInsertBatch client data e).2.1 = []
      ∧ (pgInsertBatch client data e).1.processedRows
          + ((pgInsertBatch client data e).1.errors.length - 1) = data.length
      ∧ (pgInsertBatch client data e).1.errors.getLast? = some m)
    ∧ (client.beginRes = none → client.commitRes = none →
      (pgInsertBatch client data e).2.2.getLast? = some "COMMIT"
      ∧ "ROLLBACK" ∉ (pgInsertBatch client data e).2.2) := by
  rcases data with _ | ⟨first, rest⟩
  · exact absurd rfl hne
  refine ⟨?_, ?_, ?_⟩
  · intro hbm
    exact ⟨by simp [pgInsertBatch, hbm], by simp [pgInsertBatch, hbm]⟩
  · intro hb hc
    have hsum := runRows_sum client (first.map (fun p => p.1)) (first :: rest) 0
    refine ⟨?_, ?_, ?_, ?_⟩
    · simp [pgInsertBatch, hb, hc]
    · simp [pgInsertBatch, hb, hc]
    · simp only [pgInsertBatch, hb, hc, List.length_append, List.length_singleton]
      omega
    · simp [pgInsertBatch, hb, hc, List.getLast?_concat]
  · intro hb hc
    constructor
    · simp only [pgInsertBatch, hb, hc]
      exact List.getLast?_concat _
    · intro hmem
      simp only [pgInsertBatch, hb, hc] at hmem
      simp at hmem

/-- C6 (witness): the amended statement's three parts at concrete two-row
batches — a throwing `BEGIN`, a throwing `COMMIT` after two successful
inserts, and a failing row insert that still ends in `COMMIT` with no
`ROLLBACK`. -/
theorem C6_witness :
    ((pgInsertBatch c6BeginClient c6Data 3).1
        = { success := false, processedRows := 0,
            errors := ["connection refused"], duration := 3 }
      ∧ (pgInsertBatch c6BeginClient c6Data 3).2.1 = [])
    ∧ ((pgInsertBatch c6Client c6Data 3).1.success = false
      ∧ (pgInsertBatch c6Client c6Data 3).2.1 = []
      ∧ (pgInsertBatch c6Client c6Data 3).1.processedRows
          + ((pgInsertBatch c6Client c6Data 3).1.errors.length - 1) = c6Data.length
      ∧ (pgInsertBatch c6Client c6Data 3).1.errors.getLast?
          = some "Connection terminated unexpectedly")
    ∧ ((pgInsertBatch c6RowFailClient c6Data 3).2.2.getLast? = some "COMMIT"
      ∧ "ROLLBACK" ∉ (pgInsertBatch c6RowFailClient c6Data 3).2.2) :=
  ⟨(C6_amended c6BeginClient c6Data 3 "connection refused" (by decide)).1 rfl,
   (C6_amended c6Client c6Data 3 "Connection terminated unexpectedly"
      (by decide)).2.1 rfl rfl,
   (C6_amended c6RowFailClient c6Data 3 "Connection terminated unexpectedly"
      (by decide)).2.2 rfl rfl⟩

/-! ## Claim C7 — row-count connection errors are swallowed -/

/-- C7 (code bug): `VerticaAdapter.getRowCount` catches every exception of
the count query and returns the substitute count 0, so a connection error is
NOT surfaced: `migrateTable` — whose own catch-and-rethrow wrapper around
`getRowCount` is thereby dead code — continues with `totalRows = 0`,
performs no further adapter call, and completes silently as a 0/0-row
migration instead of aborting the table's pipeline. -/
theorem C7_rowcount_swallowed :
    verticaGetRowCount (VQueryRes.thrown "connect ECONNREFUSED 10.0.0.5:5433") = 0
    ∧ migrateTable "MODULES" "modules" c7Env ⟨some 1000, false, false⟩
      = ([PipeCall.getTableSchema "modules", PipeCall.getRowCount "MODULES"], 0, none)
    ∧ (∀ o l, PipeCall.getBatchData o l
        ∉ (migrateTable "MODULES" "modules" c7Env ⟨some 1000, false, false⟩).1) := by
  refine ⟨rfl, by decide, ?_⟩
  intro o l h
  rw [show (migrateTable "MODULES" "modules" c7Env ⟨some 1000, false, false⟩).1
      = [PipeCall.getTableSchema "modules", PipeCall.getRowCount "MODULES"] from by decide] at h
  simp at h

/-! ## Claim C8 — paging offsets -/

/-- C8: in a non-dry-run, non-`CATEGORY` run, the offsets passed to
`getBatchData` are exactly `0, b, 2b, …` for the effective batch size `b`
(`options.batchSize || 1000`, so `b > 0`): every offset is a multiple of
`b`, the sequence is strictly increasing with step exactly `b` (hence no
offset repeats), every offset issued is `< totalRows`, and any offset after
the first was only issued because the previous page was non-empty (the loop
stops at an empty page or when the offset reaches `totalRows`). -/
theorem C8_offsets (src tgt : String) (env : MigrationEnv) (opts : MigrationOptions)
    (hsrc : src ≠ "CATEGORY") (hdry : opts.dryRun = false) :
    ∃ b k,
      (match opts.batchSize with
        | none => 1000
        | some 0 => 1000
        | some bs => bs) = b
      ∧ 0 < b
      ∧ offsetsOf (migrateTable src tgt env opts).1
          = (List.range k).map (fun i => i * b)
      ∧ (∀ o ∈ offsetsOf (migrateTable src tgt env opts).1,
          (o : Int) < verticaGetRowCount env.rowCountRes)
      ∧ (∀ o ∈ offsetsOf (migrateTable src tgt env opts).1,
          o = 0 ∨ env.pages (o - b) b ≠ []) := by
  set b := (match opts.batchSize with
    | none => 1000
    | some 0 => 1000
    | some bs => bs) with hbdef
  have hbpos : 0 < b := by
    rw [hbdef]
    rcases opts.batchSize with _ | bs
    · norm_num
    · rcases bs with _ | bs2
      · norm_num
      · simp
  obtain ⟨k, h1, h2, h3⟩ := migrateLoop_offsets env src (columnMappingFor src)
    (env.targetSchema.map (fun c => c.name)) b (verticaGetRowCount env.rowCountRes)
    ((verticaGetRowCount env.rowCountRes).toNat + 1) 0 0
  have htrace : offsetsOf (migrateTable src tgt env opts).1
      = offsetsOf (migrateLoop env src (columnMappingFor src)
          (env.targetSchema.map (fun c => c.name)) b (verticaGetRowCount env.rowCountRes)
          ((verticaGetRowCount env.rowCountRes).toNat + 1) 0 0).1 := by
    simp only [migrateTable, hdry, if_false, Bool.false_eq_true, if_neg hsrc, ← hbdef]
    simp [offsetsOf]
  refine ⟨b, k, rfl, hbpos, ?_, ?_, ?_⟩
  · rw [htrace, h1]
    exact List.map_congr_left (fun i _ => by omega)
  · intro o ho
    rw [htrace] at ho
    exact h2 o ho
  · intro o ho
    rw [htrace] at ho
    rcases h3 o ho with h | h
    · exact Or.inl h
    · exact Or.inr h

/-- C8 (witness): the offset sequence of a concrete run over a 3-row source
with batch size 2 (offsets 0 and 2). -/
theorem C8_witness :
    ∃ b k,
      (match (⟨some 2, false, false⟩ : MigrationOptions).batchSize with
        | none => 1000
        | some 0 => 1000
        | some bs => bs) = b
      ∧ 0 < b
      ∧ offsetsOf (migrateTable "MODULES" "modules" c8Env ⟨some 2, false, false⟩).1
          = (List.range k).map (fun i => i * b)
      ∧ (∀ o ∈ offsetsOf (migrateTable "MODULES" "modules" c8Env ⟨some 2, false, false⟩).1,
          (o : Int) < verticaGetRowCount c8Env.rowCountRes)
      ∧ (∀ o ∈ offsetsOf (migrateTable "MODULES" "modules" c8Env ⟨some 2, false, false⟩).1,
          o = 0 ∨ c8Env.pages (o - b) b ≠ []) :=
  C8_offsets "MODULES" "modules" c8Env ⟨some 2, false, false⟩ (by decide) rfl

/-! ## Claim C9 — column resolution and dropping -/

/-- C9: the resolved target column name is the explicit mapping entry when
one exists (all of the program's mapping entries are non-empty strings,
hence truthy) and the lowercased source name otherwise; every key of a
transformed row belongs to the target schema's column set, and a source
column whose resolved name is absent from that set contributes no key at
all. -/
theorem C9_column_resolution (src : String) (mapping : List (String × String))
    (cols : List String) (now : Int) (row : Row)
    (hmap : ∀ p ∈ mapping, p.2 ≠ "") :
    (∀ p ∈ transformRow src mapping cols now row, p.1 ∈ cols)
    ∧ (∀ c t, mapping.lookup c = some t → resolveTargetCol mapping c = t)
    ∧ (∀ c, mapping.lookup c = none → resolveTargetCol mapping c = c.toLower)
    ∧ (∀ c, resolveTargetCol mapping c ∉ cols →
        (transformRow src mapping cols now row).lookup (resolveTargetCol mapping c)
          = none) := by
  refine ⟨transformRow_keys src mapping cols now row, ?_, ?_, ?_⟩
  · intro c t h
    unfold resolveTargetCol
    rw [h]
    simp [hmap (c, t) (lookup_mem h)]
  · intro c h
    unfold resolveTargetCol
    rw [h]
  · intro c hc
    refine lookup_eq_none_of_keys ?_
    intro p hp hk
    exact hc (hk ▸ transformRow_keys src mapping cols now row p hp)

/-- C9 (witness): concrete consequences for the `CATEGORY` mapping — a
mapped column resolves to its mapping entry, an unmapped one to its
lowercased name, and a column absent from the target column set leaves no
key in the transformed row. -/
theorem C9_witness :
    resolveTargetCol (columnMappingFor "CATEGORY") "CATEGORY_ID" = "id"
    ∧ resolveTargetCol (columnMappingFor "CATEGORY") "EXTRA_COL" = "EXTRA_COL".toLower
    ∧ (transformRow "CATEGORY" (columnMappingFor "CATEGORY") ["id"] 0
        [("CATEGORY_ID", Value.num 5), ("NAME", Value.str "x")]).lookup
          (resolveTargetCol (columnMappingFor "CATEGORY") "NAME")
      = none :=
  ⟨(C9_column_resolution "CATEGORY" (columnMappingFor "CATEGORY") ["id"] 0
      [("CATEGORY_ID", Value.num 5), ("NAME", Value.str "x")]
      (by decide)).2.1 "CATEGORY_ID" "id" rfl,
   (C9_column_resolution "CATEGORY" (columnMappingFor "CATEGORY") ["id"] 0
      [("CATEGORY_ID", Value.num 5), ("NAME", Value.str "x")]
      (by decide)).2.2.1 "EXTRA_COL" rfl,
   (C9_column_resolution "CATEGORY" (columnMappingFor "CATEGORY") ["id"] 0
      [("CATEGORY_ID", Value.num 5), ("NAME", Value.str "x")]
      (by decide)).2.2.2 "NAME" (by decide)⟩


end DBMig
